import Mathlib

/-!
Verification of the ORCA competitor discovery and scoring pipeline.

The UI sources under `ORCA-UI/src` are embedded directly (tier badge,
HTTP client response handling).  The backend pipeline (Flask/Python) is
not part of the visible sources, so its components are modelled from the
specification, as marked on each definition.
-/

namespace ORCA

/-- A tier badge as returned by `getTierBadge` in
`ORCA-UI/src/pages/ContentStrategy.tsx`: a label and a CSS color class. -/
structure TierBadge where
  label : String
  color : String
deriving DecidableEq

/-- Embedding of `getTierBadge` from `ORCA-UI/src/pages/ContentStrategy.tsx`
(lines 91–96): threshold ladder on the numeric score. -/
def getTierBadge (score : ℚ) : TierBadge :=
  if score ≥ 70 then ⟨"🥇 DIRECT", "bg-red-500/20 text-red-300 border-red-500/30"⟩
  else if score ≥ 50 then ⟨"🥈 STRONG", "bg-orange-500/20 text-orange-300 border-orange-500/30"⟩
  else if score ≥ 30 then ⟨"🥉 MODERATE", "bg-yellow-500/20 text-yellow-300 border-yellow-500/30"⟩
  else ⟨"⚪ WEAK", "bg-gray-500/20 text-gray-300 border-gray-500/30"⟩

/-- Confidence tiers of the pipeline (spec §4.5). -/
inductive Tier where
  | DIRECT
  | STRONG
  | MODERATE
  | WEAK
deriving DecidableEq

/-- Modelled from the spec: tier assignment of the Aggregator (spec §3,
§4.5), the same fixed threshold ladder the UI's `getTierBadge` renders. -/
def tierOf (score : ℚ) : Tier :=
  if score ≥ 70 then .DIRECT
  else if score ≥ 50 then .STRONG
  else if score ≥ 30 then .MODERATE
  else .WEAK

/-- A JSON-like value, the shape of parsed `response.json()` bodies. -/
inductive Json where
  | null
  | bool (b : Bool)
  | num (q : ℚ)
  | str (s : String)
  | arr (elems : List Json)
  | obj (fields : List (String × Json))

/-- Field access `j.k` in JavaScript: `none` when the field is absent or the
value is not an object (JS `undefined`). -/
def Json.getField (j : Json) (k : String) : Option Json :=
  match j with
  | .obj fields => fields.lookup k
  | _ => none

/-- JavaScript truthiness of a JSON value. -/
def Json.truthy : Json → Bool
  | .null => false
  | .bool b => b
  | .num q => decide (q ≠ 0)
  | .str s => decide (s ≠ "")
  | .arr _ => true
  | .obj _ => true

/-- JavaScript `a || b` where `a` is a possibly-undefined field value. -/
def jsOr (a : Option Json) (b : Json) : Json :=
  match a with
  | some v => if v.truthy then v else b
  | none => b

/-- Whether `data.success === false` holds (strict equality). -/
def successIsFalse (data : Json) : Bool :=
  match data.getField "success" with
  | some (.bool false) => true
  | _ => false

/-- Embedding of the response handling in `APIService.discoverCompetitors`
(`ORCA-UI/src/services/api.ts`, lines 165–182).  `ok` and `statusText` come
from the HTTP response; `body` is the result of `response.json()`, `none`
when the body is not valid JSON (on the non-ok path the code catches the
parse failure and substitutes `{error: 'Unknown error'}`).  Errors carry the
value passed to `new Error(...)`. -/
def handleDiscoverResponse (ok : Bool) (statusText : String)
    (body : Option Json) : Except Json Json :=
  if ok then
    match body with
    | none => .error (.str "JSON parse error")
    | some data =>
      if successIsFalse data then
        .error (jsOr (data.getField "error") (.str "Discovery failed"))
      else
        .ok (jsOr (data.getField "data") data)
  else
    let error := body.getD (Json.obj [("error", Json.str "Unknown error")])
    .error (jsOr (error.getField "error")
      (.str ("Discovery failed: " ++ statusText)))

/-- Test whether the first list is an initial segment of the second. -/
def isPre : List Char → List Char → Bool
  | [], _ => true
  | _ :: _, [] => false
  | p :: ps, c :: cs => p == c && isPre ps cs

/-- Auxiliary scan for substring search. -/
def containsAux (pat : List Char) : List Char → Bool
  | [] => isPre pat []
  | c :: cs => isPre pat (c :: cs) || containsAux pat cs

/-- JavaScript `s.includes(pat)`. -/
def containsSub (s pat : String) : Bool :=
  containsAux pat.data s.data

/-- The message `fetchWithTimeout` raises when the request is aborted by the
timeout timer (`ORCA-UI/src/services/api.ts`, lines 77–80). -/
def timeoutMessage (timeout : ℕ) : String :=
  "Request timeout after " ++ toString (timeout / 1000) ++ " seconds. " ++
    "The backend may still be processing - check Flask terminal for progress."

/-- Outcome of a raw `fetch` call as observed by `fetchWithTimeout`: the
response arrives `t` milliseconds after the request, or never arrives. -/
inductive FetchOutcome where
  | arrives (t : ℕ) (ok : Bool) (statusText : String) (body : Option Json)
  | hangs

/-- Embedding of `APIService.fetchWithTimeout`
(`ORCA-UI/src/services/api.ts`, lines 59–85): a timer aborts the request
after `timeout` milliseconds, surfaced as an `Error` naming the timeout; a
response arriving strictly before the abort is returned unchanged. -/
def fetchWithTimeout (timeout : ℕ) (o : FetchOutcome) :
    Except String (Bool × String × Option Json) :=
  match o with
  | .arrives t ok st body =>
    if t < timeout then .ok (ok, st, body) else .error (timeoutMessage timeout)
  | .hangs => .error (timeoutMessage timeout)

/-- The replacement message for timeouts in `discoverCompetitors`'s catch
block (`ORCA-UI/src/services/api.ts`, lines 187–193). -/
def discoveryTimeoutHint : String :=
  "Discovery is taking longer than expected (>10 minutes). " ++
    "The backend is likely still processing. Check the Flask terminal " ++
    "to see if the agent is still running. You may need to restart the analysis."

/-- The replacement message for network failures in `discoverCompetitors`'s
catch block (`ORCA-UI/src/services/api.ts`, lines 195–197). -/
def lostConnectionHint : String :=
  "Lost connection to Flask backend during discovery. Make sure it is still running."

/-- The catch-block message rewriting in `discoverCompetitors`
(`ORCA-UI/src/services/api.ts`, lines 183–199): a message mentioning
"timeout" or a network failure is replaced by a longer hint, anything else
is rethrown unchanged. -/
def discoverCatchTransform (msg : String) : String :=
  if containsSub msg "timeout" then discoveryTimeoutHint
  else if containsSub msg "Failed to fetch" || containsSub msg "NetworkError" then
    lostConnectionHint
  else msg

/-- The catch block rewrites string Error messages; an Error payload that is
not a string is modelled unchanged (its JS string coercion is host
formatting, not pipeline logic). -/
def applyCatchJson (e : Json) : Json :=
  match e with
  | .str m => .str (discoverCatchTransform m)
  | v => v

/-- The timeout `discoverCompetitors` passes to `fetchWithTimeout`
(`ORCA-UI/src/services/api.ts`, line 162): ten minutes. -/
def discoverTimeoutMs : ℕ := 600000

/-- Embedding of one call of `APIService.discoverCompetitors`
(`ORCA-UI/src/services/api.ts`, lines 141–201): transport through
`fetchWithTimeout` with the ten-minute timeout, then response handling,
with the catch block rewriting error messages. -/
def discoverCompetitorsRun (o : FetchOutcome) : Except Json Json :=
  match fetchWithTimeout discoverTimeoutMs o with
  | .error msg => .error (.str (discoverCatchTransform msg))
  | .ok (ok, st, body) =>
    match handleDiscoverResponse ok st body with
    | .ok v => .ok v
    | .error e => .error (applyCatchJson e)

/-! The backend pipeline is not part of the visible sources; everything
below marked "Modelled from the spec" follows the specification's words
(spec sections given on each definition). -/

/-- Strip a leading occurrence of `p` from a character list. -/
def dropLead (p s : List Char) : List Char :=
  if isPre p s then s.drop p.length else s

/-- Modelled from the spec: domain normalization of the Deduplicator
(spec §4.3, missing from the visible sources) — strip the protocol, a
leading "www.", a trailing slash, and lowercase (implemented on character
lists). -/
def normalizeDomain (d : String) : String :=
  let cs := dropLead "www.".data (dropLead "https://".data (dropLead "http://".data d.data))
  let cs := if cs.getLast? = some '/' then cs.dropLast else cs
  String.mk (cs.map Char.toLower)

/-- Modelled from the spec: the Deduplicator's `is_new` (spec §4.3, missing
from the visible sources) — stateful over the set of already-seen
normalized domains; returns the verdict and the updated seen set. -/
def is_new (seen : List String) (d : String) : Bool × List String :=
  let nd := normalizeDomain d
  if seen.contains nd then (false, seen) else (true, nd :: seen)

/-- Modelled from the spec: one signal entry of a ScoreBreakdown — points
scored and the signal's maximum (spec §3). -/
structure SignalScore where
  points : ℚ
  max : ℚ
deriving DecidableEq

/-- The five-signal breakdown attached to a competitor, shape per
`CompetitorBreakdown` in `ORCA-UI/src/types/api.ts` (lines 47–72). -/
structure Breakdown where
  ai_analysis : SignalScore
  keyword_overlap : SignalScore
  business_model : SignalScore
  social_presence : SignalScore
  content_quality : SignalScore
deriving DecidableEq

/-- Modelled from the spec: AI-relevance points (spec §4.4, missing from
the visible sources) — the judge's 0–100 score scaled to the 40-point
maximum, `judge_score/100 × 40`. -/
def aiPoints (judgeScore : ℕ) : ℚ := (judgeScore : ℚ) / 100 * 40

/-- Modelled from the spec: keyword-overlap points (spec §4.4, missing from
the visible sources) — `25 × |intersection| / |seed keyword set|`, capped
at 25; an empty seed keyword set yields 0. -/
def keywordPoints (seedKws candKws : List String) : ℚ :=
  let seedSet := seedKws.dedup
  if seedSet.length = 0 then 0
  else min (25 * ((seedSet.filter (candKws.contains ·)).length : ℚ) / (seedSet.length : ℚ)) 25

/-- Modelled from the spec: business-model similarity points (spec §4.4,
missing from the visible sources) — proportional to the matched structural
indicator count, capped at the 15-point maximum. -/
def businessModelPoints (matchedIndicators : ℕ) : ℚ :=
  min (3 * (matchedIndicators : ℚ)) 15

/-- Modelled from the spec: social-presence points (spec §4.4, missing from
the visible sources) — proportional to the number of social platforms
shared between candidate and seed, capped at the 10-point maximum. -/
def socialPoints (seedSocial candSocial : List String) : ℚ :=
  min (2 * ((candSocial.dedup.filter (seedSocial.contains ·)).length : ℚ)) 10

/-- Modelled from the spec: content-quality points (spec §4.4, missing from
the visible sources) — a simple adequacy measure of the extracted evidence
(description length, snippet count), capped at the 10-point maximum. -/
def contentPoints (descriptionLength evidenceCount : ℕ) : ℚ :=
  min ((descriptionLength / 50 + 2 * evidenceCount : ℕ) : ℚ) 10

/-- Modelled from the spec: the lightweight per-domain profile produced by
ProfileFetcher (spec §3, §4.2, missing from the visible sources). -/
structure CandidateProfile where
  name : String
  description : String
  social : List String
  evidence : List String
  keywords : List String
  indicators : List String
deriving DecidableEq

/-- A rejection recorded when a candidate fails the AI-relevance gate,
shape per `AIRejection` in `ORCA-UI/src/types/api.ts` (lines 92–97). -/
structure AIRejection where
  name : String
  domain : String
  reason : String
  ai_score : ℕ
deriving DecidableEq

/-- Modelled from the spec: confidence levels of a competitor (spec §3,
§4.5). -/
inductive Confidence where
  | HIGH
  | MEDIUM
deriving DecidableEq

/-- Modelled from the spec: an accepted competitor record (spec §3) —
domain, name, total score, tier, confidence and the five-signal
breakdown, per `Competitor` in `ORCA-UI/src/types/api.ts`. -/
structure CompetitorRecord where
  domain : String
  name : String
  score : ℚ
  tier : Tier
  confidence : Confidence
  breakdown : Breakdown
deriving DecidableEq

/-- Modelled from the spec: the external collaborators and configuration a
discovery run depends on (spec §2, §6): the candidate stream (`none` at an
index models exhaustion), the profile fetcher keyed by normalized domain
(`none` models a FetchError), the AI judge, the four remaining signal
scorers, and the configured rejection threshold. -/
structure DiscoveryEnv where
  source : ℕ → Option String
  fetch : String → Option CandidateProfile
  judge : String → ℕ
  kw : CandidateProfile → ℚ
  bm : CandidateProfile → ℚ
  sp : CandidateProfile → ℚ
  cq : CandidateProfile → ℚ
  threshold : ℕ

/-- Modelled from the spec: the Aggregator (spec §4.5, missing from the
visible sources) — combines the five signal scores into a breakdown with
maxima 40/25/15/10/10, a total score, a tier and a confidence (HIGH when
AI relevance ≥ 30 and keyword overlap ≥ 12). -/
def aggregate (env : DiscoveryEnv) (domain : String) (p : CandidateProfile)
    (judgeScore : ℕ) : CompetitorRecord :=
  let ai := aiPoints judgeScore
  let kw := env.kw p
  let bm := env.bm p
  let sp := env.sp p
  let cq := env.cq p
  let total := ai + kw + bm + sp + cq
  { domain := domain
    name := p.name
    score := total
    tier := tierOf total
    confidence := if ai ≥ 30 ∧ kw ≥ 12 then .HIGH else .MEDIUM
    breakdown :=
      { ai_analysis := ⟨ai, 40⟩
        keyword_overlap := ⟨kw, 25⟩
        business_model := ⟨bm, 15⟩
        social_presence := ⟨sp, 10⟩
        content_quality := ⟨cq, 10⟩ } }

/-- The reason string recorded on an AI-gate rejection. -/
def rejectionReason : String := "AI relevance below threshold"

/-- Modelled from the spec: the DiscoveryOrchestrator loop (spec §4.6,
missing from the visible sources) — repeatedly pull the next candidate,
skip if the Deduplicator reports already-seen, fetch the profile (skip on
FetchError), run the AI-relevance gate, on pass aggregate into a
CompetitorRecord, on fail record an AIRejection; stop once the accepted
count reaches `target`, the source is exhausted, or the attempt cap
(`fuel`) is spent.  Returns the accepted and rejected lists and the number
of fetch attempts issued. -/
def discoverLoop (env : DiscoveryEnv) (target : ℕ) :
    ℕ → ℕ → List String → List CompetitorRecord → List AIRejection → ℕ →
      List CompetitorRecord × List AIRejection × ℕ
  | 0, _, _, acc, rej, fetches => (acc, rej, fetches)
  | fuel + 1, i, seen, acc, rej, fetches =>
    if target ≤ acc.length then (acc, rej, fetches)
    else
      match env.source i with
      | none => (acc, rej, fetches)
      | some d =>
        let nd := normalizeDomain d
        if seen.contains nd then
          discoverLoop env target fuel (i + 1) seen acc rej fetches
        else
          match env.fetch nd with
          | none =>
            discoverLoop env target fuel (i + 1) (nd :: seen) acc rej (fetches + 1)
          | some p =>
            if env.judge nd < env.threshold then
              discoverLoop env target fuel (i + 1) (nd :: seen) acc
                (rej ++ [⟨p.name, nd, rejectionReason, env.judge nd⟩]) (fetches + 1)
            else
              discoverLoop env target fuel (i + 1) (nd :: seen)
                (acc ++ [aggregate env nd p (env.judge nd)]) rej (fetches + 1)

/-- Modelled from the spec: the ranking order (spec §4.5) — descending
total score, ties broken by higher AI-relevance points, then lexicographic
domain order. -/
def rankRel (a b : CompetitorRecord) : Prop :=
  b.score < a.score ∨ (a.score = b.score ∧
    (b.breakdown.ai_analysis.points < a.breakdown.ai_analysis.points ∨
      (a.breakdown.ai_analysis.points = b.breakdown.ai_analysis.points ∧
        a.domain ≤ b.domain)))

instance : DecidableRel rankRel := fun a b => by unfold rankRel; infer_instance

/-- The statistics block of a DiscoveryResult, fields per
`CompetitorStatistics` in `ORCA-UI/src/types/api.ts` (lines 37–45). -/
structure CompetitorStatistics where
  total_found : ℕ
  direct : ℕ
  strong : ℕ
  moderate : ℕ
  weak : ℕ
  average_score : ℚ
  ai_rejections : ℕ
deriving DecidableEq

/-- Modelled from the spec: aggregate statistics over the final lists
(spec §3, §6) — the total, per-tier counts, average score and rejection
count. -/
def computeStatistics (comps : List CompetitorRecord) (rejs : List AIRejection) :
    CompetitorStatistics :=
  { total_found := comps.length
    direct := comps.countP (fun c => c.tier == Tier.DIRECT)
    strong := comps.countP (fun c => c.tier == Tier.STRONG)
    moderate := comps.countP (fun c => c.tier == Tier.MODERATE)
    weak := comps.countP (fun c => c.tier == Tier.WEAK)
    average_score :=
      if comps.length = 0 then 0 else (comps.map (·.score)).sum / comps.length
    ai_rejections := rejs.length }

/-- The JSON keys of an object value (empty for non-objects). -/
def Json.keys : Json → List String
  | .obj fields => fields.map (·.1)
  | _ => []

/-- Serialization of the statistics block, keys in the declared order of
`CompetitorStatistics` in `ORCA-UI/src/types/api.ts` (lines 37–45). -/
def statisticsToJson (s : CompetitorStatistics) : Json :=
  .obj
    [("total_found", .num s.total_found),
     ("direct", .num s.direct),
     ("strong", .num s.strong),
     ("moderate", .num s.moderate),
     ("weak", .num s.weak),
     ("average_score", .num s.average_score),
     ("ai_rejections", .num s.ai_rejections)]

/-- Modelled from the spec: the terminal DiscoveryResult (spec §3), shape
per `CompetitorDiscoveryResult` in `ORCA-UI/src/types/api.ts` (timestamp
and context fields omitted: they carry no pipeline logic). -/
structure DiscoveryResult where
  source_company : String
  statistics : CompetitorStatistics
  competitors : List CompetitorRecord
  ai_rejections : List AIRejection
deriving DecidableEq

/-- Modelled from the spec: a full discovery run (spec §4.6, missing from
the visible sources) — the seen set starts with the seed's own domain, the
attempt cap is three times the target, the accepted set is ranked and
truncated to the target, and the statistics are computed over the final
lists. -/
def runDiscovery (env : DiscoveryEnv) (sourceCompany seedDomain : String)
    (target : ℕ) : DiscoveryResult :=
  let out := discoverLoop env target (3 * target) 0 [normalizeDomain seedDomain] [] [] 0
  let ranked := (List.insertionSort rankRel out.1).take target
  { source_company := sourceCompany
    statistics := computeStatistics ranked out.2.1
    competitors := ranked
    ai_rejections := out.2.1 }

/-- The number of fetch attempts a discovery run issues. -/
def runDiscoveryAttempts (env : DiscoveryEnv) (seedDomain : String)
    (target : ℕ) : ℕ :=
  (discoverLoop env target (3 * target) 0 [normalizeDomain seedDomain] [] [] 0).2.2

/-- Every record in the accepted list produced by the loop was either there
at entry or was aggregated from a fetched profile that passed the AI gate. -/
theorem discoverLoop_acc_mem (env : DiscoveryEnv) (target : ℕ) :
    ∀ (fuel i : ℕ) (seen : List String) (acc : List CompetitorRecord)
      (rej : List AIRejection) (fetches : ℕ) (rec : CompetitorRecord),
      rec ∈ (discoverLoop env target fuel i seen acc rej fetches).1 →
      rec ∈ acc ∨ ∃ nd p, env.fetch nd = some p ∧
        env.threshold ≤ env.judge nd ∧ rec = aggregate env nd p (env.judge nd) := by
  intro fuel
  induction fuel with
  | zero => intro i seen acc rej fetches rec h; exact Or.inl h
  | succ fuel ih =>
    intro i seen acc rej fetches rec h
    rw [discoverLoop] at h
    split at h
    · exact Or.inl h
    · split at h
      · exact Or.inl h
      · dsimp only at h
        split at h
        · exact ih _ _ _ _ _ _ h
        · split at h
          · exact ih _ _ _ _ _ _ h
          · rename_i d _ _ nd p hp
            split at h
            · exact ih _ _ _ _ _ _ h
            · rename_i hj
              rcases ih _ _ _ _ _ _ h with hmem | hnew
              · rcases List.mem_append.mp hmem with hacc | hone
                · exact Or.inl hacc
                · refine Or.inr ⟨_, p, hp, le_of_not_lt hj, ?_⟩
                  simpa using hone
              · exact Or.inr hnew

/-- Every record in the rejection list produced by the loop was either
there at entry or records a fetched profile that failed the AI gate,
carrying the judge's score. -/
theorem discoverLoop_rej_mem (env : DiscoveryEnv) (target : ℕ) :
    ∀ (fuel i : ℕ) (seen : List String) (acc : List CompetitorRecord)
      (rej : List AIRejection) (fetches : ℕ) (r : AIRejection),
      r ∈ (discoverLoop env target fuel i seen acc rej fetches).2.1 →
      r ∈ rej ∨ ∃ nd p, env.fetch nd = some p ∧
        env.judge nd < env.threshold ∧
        r = ⟨p.name, nd, rejectionReason, env.judge nd⟩ := by
  intro fuel
  induction fuel with
  | zero => intro i seen acc rej fetches r h; exact Or.inl h
  | succ fuel ih =>
    intro i seen acc rej fetches r h
    rw [discoverLoop] at h
    split at h
    · exact Or.inl h
    · split at h
      · exact Or.inl h
      · dsimp only at h
        split at h
        · exact ih _ _ _ _ _ _ h
        · split at h
          · exact ih _ _ _ _ _ _ h
          · rename_i d _ _ nd p hp
            split at h
            · rename_i hj
              rcases ih _ _ _ _ _ _ h with hmem | hnew
              · rcases List.mem_append.mp hmem with hrej | hone
                · exact Or.inl hrej
                · refine Or.inr ⟨_, p, hp, hj, ?_⟩
                  simpa using hone
              · exact Or.inr hnew
            · exact ih _ _ _ _ _ _ h

/-- Rejections present at entry to the loop persist in its output. -/
theorem discoverLoop_rej_mono (env : DiscoveryEnv) (target : ℕ) :
    ∀ (fuel i : ℕ) (seen : List String) (acc : List CompetitorRecord)
      (rej : List AIRejection) (fetches : ℕ) (r : AIRejection),
      r ∈ rej → r ∈ (discoverLoop env target fuel i seen acc rej fetches).2.1 := by
  intro fuel
  induction fuel with
  | zero => intro i seen acc rej fetches r h; exact h
  | succ fuel ih =>
    intro i seen acc rej fetches r h
    rw [discoverLoop]
    split
    · exact h
    · split
      · exact h
      · dsimp only
        split
        · exact ih _ _ _ _ _ _ h
        · split
          · exact ih _ _ _ _ _ _ h
          · split
            · exact ih _ _ _ _ _ _ (List.mem_append.mpr (Or.inl h))
            · exact ih _ _ _ _ _ _ h

/-- The loop issues at most `fuel` fetch attempts beyond those counted at
entry. -/
theorem discoverLoop_fetches_le (env : DiscoveryEnv) (target : ℕ) :
    ∀ (fuel i : ℕ) (seen : List String) (acc : List CompetitorRecord)
      (rej : List AIRejection) (fetches : ℕ),
      (discoverLoop env target fuel i seen acc rej fetches).2.2 ≤ fetches + fuel := by
  intro fuel
  induction fuel with
  | zero => intro i seen acc rej fetches; exact le_refl _
  | succ fuel ih =>
    intro i seen acc rej fetches
    rw [discoverLoop]
    split
    · exact Nat.le_add_right _ _
    · split
      · exact Nat.le_add_right _ _
      · dsimp only
        split
        · exact (ih _ _ _ _ _).trans (by omega)
        · split
          · exact (ih _ _ _ _ _).trans (by omega)
          · split
            · exact (ih _ _ _ _ _).trans (by omega)
            · exact (ih _ _ _ _ _).trans (by omega)

/-- The ranking order is total. -/
instance : IsTotal CompetitorRecord rankRel := by
  constructor
  intro a b
  unfold rankRel
  rcases lt_trichotomy a.score b.score with h | h | h
  · exact Or.inr (Or.inl h)
  · rcases lt_trichotomy a.breakdown.ai_analysis.points b.breakdown.ai_analysis.points
      with g | g | g
    · exact Or.inr (Or.inr ⟨h.symm, Or.inl g⟩)
    · rcases le_total a.domain b.domain with hd | hd
      · exact Or.inl (Or.inr ⟨h, Or.inr ⟨g, hd⟩⟩)
      · exact Or.inr (Or.inr ⟨h.symm, Or.inr ⟨g.symm, hd⟩⟩)
    · exact Or.inl (Or.inr ⟨h, Or.inl g⟩)
  · exact Or.inl (Or.inl h)

/-- The ranking order is transitive. -/
instance : IsTrans CompetitorRecord rankRel := by
  constructor
  intro a b c
  unfold rankRel
  rintro (hab | ⟨hab, hab2⟩) (hbc | ⟨hbc, hbc2⟩)
  · exact Or.inl (hbc.trans hab)
  · exact Or.inl (by rw [← hbc]; exact hab)
  · exact Or.inl (by rw [hab]; exact hbc)
  · refine Or.inr ⟨hab.trans hbc, ?_⟩
    rcases hab2 with g | ⟨g, gd⟩ <;> rcases hbc2 with g' | ⟨g', gd'⟩
    · exact Or.inl (g'.trans g)
    · exact Or.inl (by rw [← g']; exact g)
    · exact Or.inl (by rw [g]; exact g')
    · exact Or.inr ⟨g.trans g', gd.trans gd'⟩

/-- The domain of an aggregated record is the candidate's domain. -/
@[simp] theorem aggregate_domain (env : DiscoveryEnv) (nd : String)
    (p : CandidateProfile) (j : ℕ) : (aggregate env nd p j).domain = nd := rfl

/-- The four tier counts partition any competitor list. -/
theorem tier_counts_partition (l : List CompetitorRecord) :
    l.countP (fun c => c.tier == Tier.DIRECT) +
      l.countP (fun c => c.tier == Tier.STRONG) +
      l.countP (fun c => c.tier == Tier.MODERATE) +
      l.countP (fun c => c.tier == Tier.WEAK) = l.length := by
  induction l with
  | nil => rfl
  | cons c l ih =>
    simp only [List.countP_cons, List.length_cons]
    cases h : c.tier <;> simp [h] <;> omega

/-- Changing only the four non-AI signal scorers changes neither the
rejection list nor the accepted domains: the loop never consults them for a
rejected candidate, and consults only the AI judge to decide acceptance. -/
theorem discoverLoop_scorer_indep (env env' : DiscoveryEnv)
    (hs : env.source = env'.source) (hf : env.fetch = env'.fetch)
    (hj : env.judge = env'.judge) (ht : env.threshold = env'.threshold)
    (target : ℕ) :
    ∀ (fuel i : ℕ) (seen : List String) (acc acc' : List CompetitorRecord)
      (rej : List AIRejection) (fetches : ℕ),
      acc.map (·.domain) = acc'.map (·.domain) →
      (discoverLoop env target fuel i seen acc rej fetches).1.map (·.domain) =
        (discoverLoop env' target fuel i seen acc' rej fetches).1.map (·.domain) ∧
      (discoverLoop env target fuel i seen acc rej fetches).2.1 =
        (discoverLoop env' target fuel i seen acc' rej fetches).2.1 := by
  intro fuel
  induction fuel with
  | zero => intro i seen acc acc' rej fetches hacc; exact ⟨hacc, rfl⟩
  | succ fuel ih =>
    intro i seen acc acc' rej fetches hacc
    have hlen : acc.length = acc'.length := by
      have := congrArg List.length hacc
      simpa using this
    rw [discoverLoop, discoverLoop, ← hs, ← hf, ← hj, ← ht, ← hlen]
    split
    · exact ⟨hacc, rfl⟩
    · split
      · exact ⟨hacc, rfl⟩
      · dsimp only
        split
        · exact ih _ _ _ _ _ _ hacc
        · split
          · exact ih _ _ _ _ _ _ hacc
          · split
            · exact ih _ _ _ _ _ _ hacc
            · refine ih _ _ _ _ _ _ ?_
              simp [hacc]

/-- Membership form of `List.contains` for seen sets. -/
theorem contains_iff_mem {l : List String} {a : String} :
    l.contains a = true ↔ a ∈ l := List.elem_iff

/-- At-most-once processing: when every domain already recorded is in the
seen set and the recorded domains are distinct, the loop keeps all recorded
domains (accepted and rejected together) distinct. -/
theorem discoverLoop_domains_nodup (env : DiscoveryEnv) (target : ℕ) :
    ∀ (fuel i : ℕ) (seen : List String) (acc : List CompetitorRecord)
      (rej : List AIRejection) (fetches : ℕ),
      (∀ rec ∈ acc, rec.domain ∈ seen) →
      (∀ r ∈ rej, r.domain ∈ seen) →
      ((acc.map (·.domain)) ++ (rej.map (·.domain))).Nodup →
      (((discoverLoop env target fuel i seen acc rej fetches).1.map (·.domain)) ++
        ((discoverLoop env target fuel i seen acc rej fetches).2.1.map (·.domain))).Nodup := by
  intro fuel
  induction fuel with
  | zero => intro i seen acc rej fetches _ _ hnd; exact hnd
  | succ fuel ih =>
    intro i seen acc rej fetches hacc hrej hnd
    rw [discoverLoop]
    split
    · exact hnd
    · split
      · exact hnd
      · dsimp only
        split
        · exact ih _ _ _ _ _ hacc hrej hnd
        · rename_i d _ hnew
          have hnijk : normalizeDomain d ∉ seen := fun hm =>
            hnew (contains_iff_mem.mpr hm)
          split
          · exact ih _ _ _ _ _
              (fun rec hr => List.mem_cons_of_mem _ (hacc rec hr))
              (fun r hr => List.mem_cons_of_mem _ (hrej r hr)) hnd
          · rename_i p _
            split
            · refine ih _ _ _ _ _
                (fun rec hr => List.mem_cons_of_mem _ (hacc rec hr))
                (fun r hr => ?_) ?_
              · rcases List.mem_append.mp hr with h | h
                · exact List.mem_cons_of_mem _ (hrej r h)
                · simp only [List.mem_singleton] at h
                  subst h
                  exact List.mem_cons_self _ _
              · have hperm :
                  ((acc.map (·.domain)) ++
                      ((rej ++ [(⟨p.name, normalizeDomain d, rejectionReason,
                        env.judge (normalizeDomain d)⟩ : AIRejection)]).map (·.domain))).Perm
                    (normalizeDomain d ::
                      ((acc.map (·.domain)) ++ (rej.map (·.domain)))) := by
                  simp only [List.map_append, List.map_cons, List.map_nil]
                  rw [← List.append_assoc]
                  exact List.perm_append_singleton _ _
                refine hperm.nodup_iff.mpr (List.Nodup.cons ?_ hnd)
                intro hmem
                rcases List.mem_append.mp hmem with h | h
                · rcases List.mem_map.mp h with ⟨rec, hr, hdom⟩
                  exact hnijk (hdom ▸ hacc rec hr)
                · rcases List.mem_map.mp h with ⟨r, hr, hdom⟩
                  exact hnijk (hdom ▸ hrej r hr)
            · refine ih _ _ _ _ _
                (fun rec hr => ?_)
                (fun r hr => List.mem_cons_of_mem _ (hrej r hr)) ?_
              · rcases List.mem_append.mp hr with h | h
                · exact List.mem_cons_of_mem _ (hacc rec h)
                · simp only [List.mem_singleton] at h
                  subst h
                  simp only [aggregate_domain]
                  exact List.mem_cons_self _ _
              · have hperm :
                  (((acc ++ [aggregate env (normalizeDomain d) p
                        (env.judge (normalizeDomain d))]).map (·.domain)) ++
                      (rej.map (·.domain))).Perm
                    (normalizeDomain d ::
                      ((acc.map (·.domain)) ++ (rej.map (·.domain)))) := by
                  simp only [List.map_append, List.map_cons, List.map_nil, aggregate_domain]
                  exact (List.perm_append_singleton _ _).append_right _
                refine hperm.nodup_iff.mpr (List.Nodup.cons ?_ hnd)
                intro hmem
                rcases List.mem_append.mp hmem with h | h
                · rcases List.mem_map.mp h with ⟨rec, hr, hdom⟩
                  exact hnijk (hdom ▸ hacc rec hr)
                · rcases List.mem_map.mp h with ⟨r, hr, hdom⟩
                  exact hnijk (hdom ▸ hrej r hr)

/-- The competitors of a run are the ranked, truncated accepted list. -/
theorem runDiscovery_competitors (env : DiscoveryEnv) (sc sd : String) (target : ℕ) :
    (runDiscovery env sc sd target).competitors =
      (List.insertionSort rankRel
        (discoverLoop env target (3 * target) 0 [normalizeDomain sd] [] [] 0).1).take
        target := rfl

/-- The rejections of a run are the loop's rejection list. -/
theorem runDiscovery_rejections (env : DiscoveryEnv) (sc sd : String) (target : ℕ) :
    (runDiscovery env sc sd target).ai_rejections =
      (discoverLoop env target (3 * target) 0 [normalizeDomain sd] [] [] 0).2.1 := rfl

/-- The statistics of a run are computed over its final lists. -/
theorem runDiscovery_statistics (env : DiscoveryEnv) (sc sd : String) (target : ℕ) :
    (runDiscovery env sc sd target).statistics =
      computeStatistics (runDiscovery env sc sd target).competitors
        (runDiscovery env sc sd target).ai_rejections := rfl

/-- Membership in a run's competitors implies membership in the loop's
accepted list. -/
theorem mem_of_mem_competitors {env : DiscoveryEnv} {sc sd : String}
    {target : ℕ} {rec : CompetitorRecord}
    (h : rec ∈ (runDiscovery env sc sd target).competitors) :
    rec ∈ (discoverLoop env target (3 * target) 0 [normalizeDomain sd] [] [] 0).1 := by
  rw [runDiscovery_competitors] at h
  exact (List.perm_insertionSort rankRel _).subset ((List.take_sublist _ _).subset h)

/-- AI-relevance points are within their maximum for judge scores up to
100. -/
theorem aiPoints_bounds (j : ℕ) (h : j ≤ 100) : 0 ≤ aiPoints j ∧ aiPoints j ≤ 40 := by
  unfold aiPoints
  constructor
  · positivity
  · have hc : (j : ℚ) ≤ 100 := by exact_mod_cast h
    rw [div_mul_eq_mul_div, div_le_iff₀ (by norm_num : (0 : ℚ) < 100)]
    linarith

/-- Keyword-overlap points are within their maximum. -/
theorem keywordPoints_bounds (s c : List String) :
    0 ≤ keywordPoints s c ∧ keywordPoints s c ≤ 25 := by
  unfold keywordPoints
  dsimp only
  split
  · norm_num
  · exact ⟨le_min (by positivity) (by norm_num), min_le_right _ _⟩

/-- Business-model points are within their maximum. -/
theorem businessModelPoints_bounds (m : ℕ) :
    0 ≤ businessModelPoints m ∧ businessModelPoints m ≤ 15 :=
  ⟨le_min (by positivity) (by norm_num), min_le_right _ _⟩

/-- Social-presence points are within their maximum. -/
theorem socialPoints_bounds (s c : List String) :
    0 ≤ socialPoints s c ∧ socialPoints s c ≤ 10 :=
  ⟨le_min (by positivity) (by norm_num), min_le_right _ _⟩

/-- Content-quality points are within their maximum. -/
theorem contentPoints_bounds (d e : ℕ) :
    0 ≤ contentPoints d e ∧ contentPoints d e ≤ 10 :=
  ⟨le_min (by positivity) (by norm_num), min_le_right _ _⟩

/-- The ranking order implies the claim's non-increasing/tie-break shape. -/
theorem rankRel_imp {a b : CompetitorRecord} (h : rankRel a b) :
    b.score ≤ a.score ∧ (a.score = b.score →
      (b.breakdown.ai_analysis.points ≤ a.breakdown.ai_analysis.points ∧
        (a.breakdown.ai_analysis.points = b.breakdown.ai_analysis.points →
          a.domain ≤ b.domain))) := by
  rcases h with h | ⟨heq, h2⟩
  · exact ⟨h.le, fun he => absurd h (by rw [he]; exact lt_irrefl _)⟩
  · refine ⟨heq.ge, fun _ => ?_⟩
    rcases h2 with g | ⟨geq, gd⟩
    · exact ⟨g.le, fun ge => absurd g (by rw [ge]; exact lt_irrefl _)⟩
    · exact ⟨geq.ge, fun _ => gd⟩

/-- The seed keyword set used by the concrete sample environment. -/
def seedKeywords : List String := ["project", "management", "construction"]

/-- A concrete environment using the spec-modelled scorers: four candidate
domains, of which b.com scores 20 with the judge (below the 35 threshold)
and the rest 80. -/
def concreteEnv : DiscoveryEnv :=
  { source := fun i => ["a.com", "b.com", "c.com", "d.com"][i]?
    fetch := fun nd => some ⟨"Co " ++ nd, "project management software",
      ["twitter"], ["ev"], ["management", "tasks"], ["pricing"]⟩
    judge := fun nd => if nd = "b.com" then 20 else 80
    kw := fun p => keywordPoints seedKeywords p.keywords
    bm := fun p => businessModelPoints
      ((p.indicators.filter (["pricing", "saas"].contains ·)).length)
    sp := fun p => socialPoints ["twitter", "linkedin"] p.social
    cq := fun p => contentPoints p.description.length p.evidence.length
    threshold := 35 }

/-- `concreteEnv` with the four non-AI scorers zeroed out; agrees with it on
source, fetch, judge and threshold. -/
def concreteEnvZero : DiscoveryEnv :=
  { concreteEnv with
    kw := fun _ => 0
    bm := fun _ => 0
    sp := fun _ => 0
    cq := fun _ => 0 }

/-- An environment whose source is never exhausted (infinitely many
candidate domains). -/
def infiniteEnv : DiscoveryEnv :=
  { source := fun i => some (toString i ++ ".com")
    fetch := fun _ => none
    judge := fun _ => 0
    kw := fun _ => 0
    bm := fun _ => 0
    sp := fun _ => 0
    cq := fun _ => 0
    threshold := 35 }

/-- An environment with five candidates where fetching c.com fails and every
fetched candidate scores below the AI-gate threshold. -/
def rejectAllEnv : DiscoveryEnv :=
  { source := fun i => ["a.com", "b.com", "c.com", "d.com", "e.com"][i]?
    fetch := fun nd => if nd = "c.com" then none else
      some ⟨"Co " ++ nd, "desc", ["twitter"], ["ev"], ["kw"], ["pricing"]⟩
    judge := fun nd => if nd = "a.com" then 20 else if nd = "b.com" then 10 else 30
    kw := fun _ => 10
    bm := fun _ => 5
    sp := fun _ => 2
    cq := fun _ => 3
    threshold := 35 }

/-- An environment whose source is exhausted immediately. -/
def emptyEnv : DiscoveryEnv :=
  { source := fun _ => none
    fetch := fun _ => none
    judge := fun _ => 0
    kw := fun _ => 0
    bm := fun _ => 0
    sp := fun _ => 0
    cq := fun _ => 0
    threshold := 35 }

end ORCA

open ORCA

/-- C1: tier assignment is a pure function of the total score with the fixed
thresholds of `getTierBadge`: score ≥ 70 is DIRECT, 50 ≤ score < 70 is STRONG,
30 ≤ score < 50 is MODERATE, score < 30 is WEAK; in particular 70 is DIRECT,
69.999 STRONG, 50 STRONG, 49.999 MODERATE, 30 MODERATE, 29.999 WEAK. -/
theorem C1_tier_thresholds (s : ℚ) :
    (70 ≤ s → (getTierBadge s).label = "🥇 DIRECT") ∧
    (50 ≤ s → s < 70 → (getTierBadge s).label = "🥈 STRONG") ∧
    (30 ≤ s → s < 50 → (getTierBadge s).label = "🥉 MODERATE") ∧
    (s < 30 → (getTierBadge s).label = "⚪ WEAK") ∧
    (getTierBadge 70).label = "🥇 DIRECT" ∧
    (getTierBadge (69.999 : ℚ)).label = "🥈 STRONG" ∧
    (getTierBadge 50).label = "🥈 STRONG" ∧
    (getTierBadge (49.999 : ℚ)).label = "🥉 MODERATE" ∧
    (getTierBadge 30).label = "🥉 MODERATE" ∧
    (getTierBadge (29.999 : ℚ)).label = "⚪ WEAK" := by
  refine ⟨fun h => ?_, fun h1 h2 => ?_, fun h1 h2 => ?_, fun h => ?_, ?_, ?_, ?_, ?_, ?_, ?_⟩
  · rw [getTierBadge, if_pos h]
  · rw [getTierBadge, if_neg (by simpa using h2.not_le), if_pos h1]
  · rw [getTierBadge, if_neg (by simp; linarith), if_neg (by simpa using h2.not_le), if_pos h1]
  · rw [getTierBadge, if_neg (by simp; linarith), if_neg (by simp; linarith),
      if_neg (by simpa using h.not_le)]
  all_goals norm_num [getTierBadge]

/-- Witness for C1 at concrete scores. -/
theorem C1_tier_thresholds_witness :
    (getTierBadge 80).label = "🥇 DIRECT" ∧
    (getTierBadge 60).label = "🥈 STRONG" ∧
    (getTierBadge 40).label = "🥉 MODERATE" ∧
    (getTierBadge 10).label = "⚪ WEAK" :=
  ⟨(C1_tier_thresholds 80).1 (by norm_num),
   ((C1_tier_thresholds 60).2.1 (by norm_num) (by norm_num)),
   ((C1_tier_thresholds 40).2.2.1 (by norm_num) (by norm_num)),
   ((C1_tier_thresholds 10).2.2.2.1 (by norm_num))⟩

/-- C2: under the scorer contracts of spec §4.4 (judge scores in 0–100 and
each remaining scorer within its maximum), every competitor record the
pipeline produces has each of the five signal entries within [0, max], the
five maxima are 40/25/15/10/10 and sum to exactly 100, and the total score
is the sum of the points and lies in [0, 100]. -/
theorem C2_breakdown_bounds (env : DiscoveryEnv) (sc sd : String) (target : ℕ)
    (hj : ∀ nd, env.judge nd ≤ 100)
    (hkw : ∀ p, 0 ≤ env.kw p ∧ env.kw p ≤ 25)
    (hbm : ∀ p, 0 ≤ env.bm p ∧ env.bm p ≤ 15)
    (hsp : ∀ p, 0 ≤ env.sp p ∧ env.sp p ≤ 10)
    (hcq : ∀ p, 0 ≤ env.cq p ∧ env.cq p ≤ 10) :
    ∀ rec ∈ (runDiscovery env sc sd target).competitors,
      (0 ≤ rec.breakdown.ai_analysis.points ∧
        rec.breakdown.ai_analysis.points ≤ rec.breakdown.ai_analysis.max) ∧
      (0 ≤ rec.breakdown.keyword_overlap.points ∧
        rec.breakdown.keyword_overlap.points ≤ rec.breakdown.keyword_overlap.max) ∧
      (0 ≤ rec.breakdown.business_model.points ∧
        rec.breakdown.business_model.points ≤ rec.breakdown.business_model.max) ∧
      (0 ≤ rec.breakdown.social_presence.points ∧
        rec.breakdown.social_presence.points ≤ rec.breakdown.social_presence.max) ∧
      (0 ≤ rec.breakdown.content_quality.points ∧
        rec.breakdown.content_quality.points ≤ rec.breakdown.content_quality.max) ∧
      rec.breakdown.ai_analysis.max = 40 ∧
      rec.breakdown.keyword_overlap.max = 25 ∧
      rec.breakdown.business_model.max = 15 ∧
      rec.breakdown.social_presence.max = 10 ∧
      rec.breakdown.content_quality.max = 10 ∧
      rec.breakdown.ai_analysis.max + rec.breakdown.keyword_overlap.max +
        rec.breakdown.business_model.max + rec.breakdown.social_presence.max +
        rec.breakdown.content_quality.max = 100 ∧
      rec.score = rec.breakdown.ai_analysis.points +
        rec.breakdown.keyword_overlap.points +
        rec.breakdown.business_model.points +
        rec.breakdown.social_presence.points +
        rec.breakdown.content_quality.points ∧
      0 ≤ rec.score ∧ rec.score ≤ 100 := by
  intro rec hrec
  rcases discoverLoop_acc_mem env target _ _ _ _ _ _ _
      (mem_of_mem_competitors hrec) with h | ⟨nd, p, _, _, heq⟩
  · exact absurd h (List.not_mem_nil _)
  · subst heq
    obtain ⟨hai1, hai2⟩ := aiPoints_bounds (env.judge nd) (hj nd)
    obtain ⟨hk1, hk2⟩ := hkw p
    obtain ⟨hb1, hb2⟩ := hbm p
    obtain ⟨hs1, hs2⟩ := hsp p
    obtain ⟨hc1, hc2⟩ := hcq p
    dsimp only [aggregate]
    refine ⟨⟨hai1, hai2⟩, ⟨hk1, hk2⟩, ⟨hb1, hb2⟩, ⟨hs1, hs2⟩, ⟨hc1, hc2⟩,
      rfl, rfl, rfl, rfl, rfl, by norm_num, rfl, by positivity, by linarith⟩

/-- Witness for C2 at the concrete environment built from the spec-modelled
scorers. -/
theorem C2_breakdown_bounds_witness :
    (∀ nd, concreteEnv.judge nd ≤ 100) ∧
    (∀ p, 0 ≤ concreteEnv.kw p ∧ concreteEnv.kw p ≤ 25) ∧
    (∀ rec ∈ (runDiscovery concreteEnv "Acme PM" "acme.com" 3).competitors,
      0 ≤ rec.score ∧ rec.score ≤ 100) := by
  have hj : ∀ nd, concreteEnv.judge nd ≤ 100 := by
    intro nd
    show (if nd = "b.com" then 20 else 80) ≤ 100
    split <;> norm_num
  have hkw : ∀ p, 0 ≤ concreteEnv.kw p ∧ concreteEnv.kw p ≤ 25 :=
    fun p => keywordPoints_bounds seedKeywords p.keywords
  refine ⟨hj, hkw, fun rec hrec => ?_⟩
  have h := C2_breakdown_bounds concreteEnv "Acme PM" "acme.com" 3 hj hkw
    (fun p => businessModelPoints_bounds _)
    (fun p => socialPoints_bounds _ _)
    (fun p => contentPoints_bounds _ _) rec hrec
  exact h.2.2.2.2.2.2.2.2.2.2.2.2

/-- C3: the AI-relevance gate short-circuits — a domain whose judge score is
below the threshold never appears among the competitors; every recorded
rejection carries exactly the judge's score for its domain and that score is
below the threshold; the rejection list does not depend on the four
remaining signal scorers (they are never run for a rejected candidate); and
whenever the loop processes a fresh, fetchable candidate whose judge score
is below the threshold, the corresponding rejection record is in the final
rejection list. -/
theorem C3_ai_gate (env : DiscoveryEnv) (sc sd : String) (target : ℕ)
    (env' : DiscoveryEnv) (hs : env.source = env'.source)
    (hf : env.fetch = env'.fetch) (hj : env.judge = env'.judge)
    (ht : env.threshold = env'.threshold) :
    (∀ nd, env.judge nd < env.threshold →
      nd ∉ (runDiscovery env sc sd target).competitors.map (·.domain)) ∧
    (∀ r ∈ (runDiscovery env sc sd target).ai_rejections,
      r.ai_score = env.judge r.domain ∧ env.judge r.domain < env.threshold) ∧
    ((runDiscovery env sc sd target).ai_rejections =
      (runDiscovery env' sc sd target).ai_rejections) ∧
    (∀ (fuel i : ℕ) (seen : List String) (acc : List CompetitorRecord)
        (rej : List AIRejection) (fetches : ℕ) (d : String) (p : CandidateProfile),
      acc.length < target → env.source i = some d →
      seen.contains (normalizeDomain d) = false →
      env.fetch (normalizeDomain d) = some p →
      env.judge (normalizeDomain d) < env.threshold →
      (⟨p.name, normalizeDomain d, rejectionReason,
        env.judge (normalizeDomain d)⟩ : AIRejection) ∈
        (discoverLoop env target (fuel + 1) i seen acc rej fetches).2.1) := by
  refine ⟨?_, ?_, ?_, ?_⟩
  · intro nd hlt hmem
    rcases List.mem_map.mp hmem with ⟨rec, hrec, hdom⟩
    rcases discoverLoop_acc_mem env target _ _ _ _ _ _ _
        (mem_of_mem_competitors hrec) with h | ⟨nd', p, _, hth, heq⟩
    · exact List.not_mem_nil _ h
    · subst heq
      rw [aggregate_domain] at hdom
      subst hdom
      exact absurd hth (not_le.mpr hlt)
  · intro r hr
    rw [runDiscovery_rejections] at hr
    rcases discoverLoop_rej_mem env target _ _ _ _ _ _ _ hr with h | ⟨nd, p, _, hlt, heq⟩
    · exact absurd h (List.not_mem_nil _)
    · subst heq
      exact ⟨rfl, hlt⟩
  · rw [runDiscovery_rejections, runDiscovery_rejections]
    exact (discoverLoop_scorer_indep env env' hs hf hj ht target _ _ _ _ _ _ _ rfl).2
  · intro fuel i seen acc rej fetches d p hlen hsrc hnew hfetch hlt
    rw [discoverLoop, if_neg (not_le.mpr hlen)]
    simp only [hsrc]
    rw [hnew]
    simp only [Bool.false_eq_true, if_false, hfetch, if_pos hlt]
    exact discoverLoop_rej_mono env target _ _ _ _ _ _ _
      (List.mem_append.mpr (Or.inr (List.mem_singleton.mpr rfl)))

/-- Witness for C3: the concrete environment against its zero-scorer
variant; b.com (judge score 20, below the 35 threshold) is recorded in the
rejections and kept out of the competitors. -/
theorem C3_ai_gate_witness :
    concreteEnv.source = concreteEnvZero.source ∧
    concreteEnv.fetch = concreteEnvZero.fetch ∧
    concreteEnv.judge = concreteEnvZero.judge ∧
    concreteEnv.threshold = concreteEnvZero.threshold ∧
    ("b.com" ∉
      (runDiscovery concreteEnv "Acme PM" "acme.com" 3).competitors.map (·.domain)) ∧
    ((runDiscovery concreteEnv "Acme PM" "acme.com" 3).ai_rejections =
      (runDiscovery concreteEnvZero "Acme PM" "acme.com" 3).ai_rejections) := by
  have h := C3_ai_gate concreteEnv "Acme PM" "acme.com" 3 concreteEnvZero rfl rfl rfl rfl
  exact ⟨rfl, rfl, rfl, rfl, h.1 "b.com" (by norm_num [concreteEnv]), h.2.2.1⟩

/-- C4: in every DiscoveryResult the competitors are ordered by
non-increasing total score, ties broken by higher AI-relevance points and
then lexicographic domain order, and the ranking is deterministic: equal
inputs produce equal results. -/
theorem C4_ranking_order (env : DiscoveryEnv) (sc sd : String) (target : ℕ) :
    (runDiscovery env sc sd target).competitors.Pairwise (fun a b =>
      b.score ≤ a.score ∧
      (a.score = b.score →
        (b.breakdown.ai_analysis.points ≤ a.breakdown.ai_analysis.points ∧
          (a.breakdown.ai_analysis.points = b.breakdown.ai_analysis.points →
            a.domain ≤ b.domain)))) ∧
    (∀ env' : DiscoveryEnv, env = env' →
      runDiscovery env sc sd target = runDiscovery env' sc sd target) := by
  constructor
  · rw [runDiscovery_competitors]
    exact ((List.Pairwise.sublist (List.take_sublist _ _)
      (List.sorted_insertionSort rankRel _)).imp fun h => rankRel_imp h)
  · intro env' h
    rw [h]

/-- Witness for C4 at the concrete environment. -/
theorem C4_ranking_order_witness :
    (runDiscovery concreteEnv "Acme PM" "acme.com" 3).competitors.Pairwise (fun a b =>
      b.score ≤ a.score ∧
      (a.score = b.score →
        (b.breakdown.ai_analysis.points ≤ a.breakdown.ai_analysis.points ∧
          (a.breakdown.ai_analysis.points = b.breakdown.ai_analysis.points →
            a.domain ≤ b.domain)))) ∧
    runDiscovery concreteEnv "Acme PM" "acme.com" 3 =
      runDiscovery concreteEnv "Acme PM" "acme.com" 3 :=
  ⟨(C4_ranking_order concreteEnv "Acme PM" "acme.com" 3).1,
   (C4_ranking_order concreteEnv "Acme PM" "acme.com" 3).2 concreteEnv rfl⟩

/-- C5 counterexample: the statistics object of a concrete discovery run
serializes with the seven fields of `CompetitorStatistics` in
`ORCA-UI/src/types/api.ts` — including `weak` — so its field set is not the
six-field set the claim states. -/
theorem C5_statistics_fields_counterexample :
    (statisticsToJson (runDiscovery emptyEnv "Acme" "seed.com" 5).statistics).keys =
      ["total_found", "direct", "strong", "moderate", "weak",
        "average_score", "ai_rejections"] ∧
    (statisticsToJson (runDiscovery emptyEnv "Acme" "seed.com" 5).statistics).keys ≠
      ["total_found", "direct", "strong", "moderate",
        "average_score", "ai_rejections"] :=
  ⟨rfl, by decide⟩

/-- C5 (amended): every DiscoveryResult carries a statistics object with
exactly the fields total_found, direct, strong, moderate, weak,
average_score and ai_rejections, where total_found is the length of the
competitors list, each per-tier count is the number of records of that tier
(the four tier counts summing to total_found), average_score is the mean of
the competitor scores (0 for an empty list), and ai_rejections is the
length of the rejection list. -/
theorem C5_statistics_fields (env : DiscoveryEnv) (sc sd : String) (target : ℕ) :
    (statisticsToJson (runDiscovery env sc sd target).statistics).keys =
      ["total_found", "direct", "strong", "moderate", "weak",
        "average_score", "ai_rejections"] ∧
    (runDiscovery env sc sd target).statistics.total_found =
      (runDiscovery env sc sd target).competitors.length ∧
    (runDiscovery env sc sd target).statistics.direct =
      (runDiscovery env sc sd target).competitors.countP
        (fun c => c.tier == Tier.DIRECT) ∧
    (runDiscovery env sc sd target).statistics.strong =
      (runDiscovery env sc sd target).competitors.countP
        (fun c => c.tier == Tier.STRONG) ∧
    (runDiscovery env sc sd target).statistics.moderate =
      (runDiscovery env sc sd target).competitors.countP
        (fun c => c.tier == Tier.MODERATE) ∧
    (runDiscovery env sc sd target).statistics.weak =
      (runDiscovery env sc sd target).competitors.countP
        (fun c => c.tier == Tier.WEAK) ∧
    (runDiscovery env sc sd target).statistics.ai_rejections =
      (runDiscovery env sc sd target).ai_rejections.length ∧
    (runDiscovery env sc sd target).statistics.total_found =
      (runDiscovery env sc sd target).statistics.direct +
        (runDiscovery env sc sd target).statistics.strong +
        (runDiscovery env sc sd target).statistics.moderate +
        (runDiscovery env sc sd target).statistics.weak ∧
    ((runDiscovery env sc sd target).statistics.average_score *
        (runDiscovery env sc sd target).competitors.length =
      ((runDiscovery env sc sd target).competitors.map (·.score)).sum ∨
      ((runDiscovery env sc sd target).competitors.length = 0 ∧
        (runDiscovery env sc sd target).statistics.average_score = 0)) := by
  refine ⟨rfl, rfl, rfl, rfl, rfl, rfl, rfl,
    (tier_counts_partition (runDiscovery env sc sd target).competitors).symm, ?_⟩
  by_cases hl : (runDiscovery env sc sd target).competitors.length = 0
  · exact Or.inr ⟨hl, by
      show (if (runDiscovery env sc sd target).competitors.length = 0 then (0 : ℚ)
        else _) = 0
      rw [if_pos hl]⟩
  · refine Or.inl ?_
    show (if (runDiscovery env sc sd target).competitors.length = 0 then (0 : ℚ)
      else ((runDiscovery env sc sd target).competitors.map (·.score)).sum /
        (runDiscovery env sc sd target).competitors.length) *
      (runDiscovery env sc sd target).competitors.length = _
    rw [if_neg hl]
    exact div_mul_cancel₀ _ (by exact_mod_cast hl)

/-- C6: for every environment — including one whose candidate source never
runs out — a discovery run issues at most 3 × target fetch attempts (so at
most 30 when the cap is 30, i.e. target = 10), and the final competitors
list has length at most target. -/
theorem C6_attempt_cap (env : DiscoveryEnv) (sc sd : String) (target : ℕ) :
    runDiscoveryAttempts env sd target ≤ 3 * target ∧
    (runDiscovery env sc sd target).competitors.length ≤ target ∧
    (target = 10 → runDiscoveryAttempts env sd target ≤ 30) := by
  have hcap : runDiscoveryAttempts env sd target ≤ 3 * target := by
    have h := discoverLoop_fetches_le env target (3 * target) 0
      [normalizeDomain sd] [] [] 0
    simpa [runDiscoveryAttempts] using h
  refine ⟨hcap, ?_, fun ht => by subst ht; simpa using hcap⟩
  rw [runDiscovery_competitors, List.length_take]
  exact min_le_left _ _

/-- Witness for C6: the infinite candidate source with target 10 issues at
most 30 fetch attempts. -/
theorem C6_attempt_cap_witness :
    (10 : ℕ) = 10 ∧ runDiscoveryAttempts infiniteEnv "seed.com" 10 ≤ 30 :=
  ⟨rfl, (C6_attempt_cap infiniteEnv "Seed" "seed.com" 10).2.2 rfl⟩

/-- C7: a domain whose profile fetch fails appears in neither the
competitors nor the rejections of the final result, and the run still
completes: in the concrete five-candidate environment where fetching c.com
fails, the run returns a full DiscoveryResult covering the other four
candidates with c.com absent from both lists. -/
theorem C7_fetch_failure_skipped (env : DiscoveryEnv) (sc sd : String)
    (target : ℕ) (nd : String) (hfail : env.fetch nd = none) :
    nd ∉ (runDiscovery env sc sd target).competitors.map (·.domain) ∧
    nd ∉ (runDiscovery env sc sd target).ai_rejections.map (·.domain) ∧
    rejectAllEnv.fetch "c.com" = none ∧
    (runDiscovery rejectAllEnv "Acme" "seed.com" 5).ai_rejections.map (·.domain) =
      ["a.com", "b.com", "d.com", "e.com"] ∧
    (runDiscovery rejectAllEnv "Acme" "seed.com" 5).competitors = [] := by
  refine ⟨?_, ?_, by rfl, by decide, by decide⟩
  · intro hmem
    rcases List.mem_map.mp hmem with ⟨rec, hrec, hdom⟩
    rcases discoverLoop_acc_mem env target _ _ _ _ _ _ _
        (mem_of_mem_competitors hrec) with h | ⟨nd', p, hp, _, heq⟩
    · exact List.not_mem_nil _ h
    · subst heq
      rw [aggregate_domain] at hdom
      subst hdom
      rw [hfail] at hp
      exact Option.noConfusion hp
  · intro hmem
    rcases List.mem_map.mp hmem with ⟨r, hr, hdom⟩
    rw [runDiscovery_rejections] at hr
    rcases discoverLoop_rej_mem env target _ _ _ _ _ _ _ hr with h | ⟨nd', p, hp, _, heq⟩
    · exact absurd h (List.not_mem_nil _)
    · subst heq
      rw [show (⟨p.name, nd', rejectionReason, env.judge nd'⟩ : AIRejection).domain = nd'
        from rfl] at hdom
      subst hdom
      rw [hfail] at hp
      exact Option.noConfusion hp

/-- Witness for C7: fetching c.com fails in the concrete environment, and
c.com is absent from both lists of the run's result. -/
theorem C7_fetch_failure_skipped_witness :
    rejectAllEnv.fetch "c.com" = none ∧
    "c.com" ∉
      (runDiscovery rejectAllEnv "Acme" "seed.com" 5).competitors.map (·.domain) ∧
    "c.com" ∉
      (runDiscovery rejectAllEnv "Acme" "seed.com" 5).ai_rejections.map (·.domain) := by
  have h := C7_fetch_failure_skipped rejectAllEnv "Acme" "seed.com" 5 "c.com" rfl
  exact ⟨rfl, h.1, h.2.1⟩

/-- C8: within one run the Deduplicator's `is_new` answers true the first
time a domain is seen and false for every later input normalizing to the
same domain — normalization strips the protocol, a leading "www." and a
trailing slash and lowercases, so `is_new "http://www.Example.com/"`
followed by `is_new "example.com"` answers true then false — and
consequently a discovery run never records the same normalized domain
twice across its competitors and rejections. -/
theorem C8_dedup_at_most_once (seen : List String) (d d' : String)
    (h1 : seen.contains (normalizeDomain d) = false)
    (h2 : normalizeDomain d' = normalizeDomain d) :
    (is_new seen d).1 = true ∧
    (is_new (is_new seen d).2 d').1 = false ∧
    normalizeDomain "http://www.Example.com/" = "example.com" ∧
    (is_new [] "http://www.Example.com/").1 = true ∧
    (is_new (is_new [] "http://www.Example.com/").2 "example.com").1 = false ∧
    ∀ (env : DiscoveryEnv) (sc sd : String) (target : ℕ),
      (((runDiscovery env sc sd target).competitors.map (·.domain)) ++
        ((runDiscovery env sc sd target).ai_rejections.map (·.domain))).Nodup := by
  have h1' : normalizeDomain d ∉ seen := by
    intro hm
    have hc := contains_iff_mem.mpr hm
    rw [h1] at hc
    exact Bool.noConfusion hc
  refine ⟨?_, ?_, by decide, by decide, by decide, ?_⟩
  · simp [is_new, h1']
  · simp [is_new, h1', h2]
  · intro env sc sd target
    have h := discoverLoop_domains_nodup env target (3 * target) 0
      [normalizeDomain sd] [] [] 0 (by simp) (by simp) (by simp)
    rcases List.nodup_append.mp h with ⟨ha, hr, hdisj⟩
    rw [runDiscovery_competitors, runDiscovery_rejections]
    have hperm : ((List.insertionSort rankRel
        (discoverLoop env target (3 * target) 0 [normalizeDomain sd] [] [] 0).1).map
          (·.domain)).Perm
        ((discoverLoop env target (3 * target) 0 [normalizeDomain sd] [] [] 0).1.map
          (·.domain)) :=
      (List.perm_insertionSort rankRel _).map _
    have hsub : (((List.insertionSort rankRel
        (discoverLoop env target (3 * target) 0 [normalizeDomain sd] [] [] 0).1).take
          target).map (·.domain)).Sublist
        ((List.insertionSort rankRel
          (discoverLoop env target (3 * target) 0 [normalizeDomain sd] [] [] 0).1).map
          (·.domain)) :=
      (List.take_sublist _ _).map _
    refine List.nodup_append.mpr ⟨hsub.nodup (hperm.nodup_iff.mpr ha), hr, ?_⟩
    intro x hx hx'
    exact hdisj (hperm.subset (hsub.subset hx)) hx'

/-- Witness for C8 at a concrete seen set and two spellings of one domain. -/
theorem C8_dedup_at_most_once_witness :
    (["foo.com"] : List String).contains (normalizeDomain "Bar.com") = false ∧
    normalizeDomain "https://bar.com/" = normalizeDomain "Bar.com" ∧
    (is_new ["foo.com"] "Bar.com").1 = true ∧
    (is_new (is_new ["foo.com"] "Bar.com").2 "https://bar.com/").1 = false := by
  have h := C8_dedup_at_most_once ["foo.com"] "Bar.com" "https://bar.com/"
    (by decide) (by decide)
  exact ⟨by decide, by decide, h.1, h.2.1⟩

/-- C9: the discover-competitors HTTP request is issued with a 600000 ms
(ten-minute) timeout; when no response arrives within that budget the
request is aborted and the call rejects with an Error (it never blocks
indefinitely), and a response arriving within the budget is processed
normally. -/
theorem C9_ten_minute_timeout (t : ℕ) (ok : Bool) (st : String)
    (body : Option Json) (v : Json) :
    discoverTimeoutMs = 600000 ∧
    discoverCompetitorsRun .hangs = .error (.str discoveryTimeoutHint) ∧
    (600000 ≤ t →
      discoverCompetitorsRun (.arrives t ok st body) =
        .error (.str discoveryTimeoutHint)) ∧
    (t < 600000 → handleDiscoverResponse ok st body = .ok v →
      discoverCompetitorsRun (.arrives t ok st body) = .ok v) := by
  refine ⟨rfl, by rfl, fun h => ?_, fun h hv => ?_⟩
  · have hn : ¬ t < 600000 := not_lt.mpr h
    simp only [discoverCompetitorsRun, fetchWithTimeout, discoverTimeoutMs, if_neg hn]
    rfl
  · simp only [discoverCompetitorsRun, fetchWithTimeout, discoverTimeoutMs, if_pos h, hv]

/-- Witness for C9: a hanging request rejects with the timeout hint and a
fast response is returned. -/
theorem C9_ten_minute_timeout_witness :
    discoverCompetitorsRun
        (.arrives 1000 true "OK" (some (Json.obj [("data", Json.str "r")]))) =
      .ok (Json.str "r") ∧
    discoverCompetitorsRun
        (.arrives 700000 true "OK" (some (Json.obj [("data", Json.str "r")]))) =
      .error (.str discoveryTimeoutHint) :=
  ⟨(C9_ten_minute_timeout 1000 true "OK" (some (Json.obj [("data", Json.str "r")]))
      (Json.str "r")).2.2.2 (by norm_num) (by rfl),
   (C9_ten_minute_timeout 700000 true "OK" (some (Json.obj [("data", Json.str "r")]))
      (Json.str "r")).2.2.1 (by norm_num)⟩

/-- C10 counterexample: with an ok response whose body is `{"data": null}`,
the `data` field is present, yet the code returns the whole body (JS
truthiness of `data.data || data`), not `body.data` as the claim states. -/
theorem C10_response_shape_counterexample :
    handleDiscoverResponse true "OK" (some (Json.obj [("data", Json.null)])) =
      .ok (Json.obj [("data", Json.null)]) ∧
    (Json.obj [("data", Json.null)]).getField "data" = some Json.null ∧
    handleDiscoverResponse true "OK" (some (Json.obj [("data", Json.null)])) ≠
      .ok Json.null := by
  refine ⟨by rfl, by rfl, ?_⟩
  intro h
  rw [show handleDiscoverResponse true "OK" (some (Json.obj [("data", Json.null)])) =
    .ok (Json.obj [("data", Json.null)]) from rfl] at h
  exact absurd (Except.ok.inj h) (by simp)

/-- C10 (amended): on an ok response whose body lacks `success === false`,
the call returns `body.data` when that field is present and truthy, and the
body itself when the field is absent or falsy; on a non-ok status or a body
with `success === false` it throws an Error whose message is the body's
`error` field when that field is present and truthy, and a default message
otherwise. -/
theorem C10_response_shape (st : String) (data v : Json) :
    (successIsFalse data = false →
      (data.getField "data" = some v → v.truthy = true →
        handleDiscoverResponse true st (some data) = .ok v) ∧
      (data.getField "data" = some v → v.truthy = false →
        handleDiscoverResponse true st (some data) = .ok data) ∧
      (data.getField "data" = none →
        handleDiscoverResponse true st (some data) = .ok data)) ∧
    (successIsFalse data = true →
      (data.getField "error" = some v → v.truthy = true →
        handleDiscoverResponse true st (some data) = .error v) ∧
      (data.getField "error" = some v → v.truthy = false →
        handleDiscoverResponse true st (some data) =
          .error (.str "Discovery failed")) ∧
      (data.getField "error" = none →
        handleDiscoverResponse true st (some data) =
          .error (.str "Discovery failed"))) ∧
    ((data.getField "error" = some v → v.truthy = true →
        handleDiscoverResponse false st (some data) = .error v) ∧
      (data.getField "error" = some v → v.truthy = false →
        handleDiscoverResponse false st (some data) =
          .error (.str ("Discovery failed: " ++ st))) ∧
      (data.getField "error" = none →
        handleDiscoverResponse false st (some data) =
          .error (.str ("Discovery failed: " ++ st)))) ∧
    handleDiscoverResponse false st none = .error (.str "Unknown error") := by
  refine ⟨fun hs => ⟨fun hf ht => ?_, fun hf ht => ?_, fun hf => ?_⟩,
    fun hs => ⟨fun hf ht => ?_, fun hf ht => ?_, fun hf => ?_⟩,
    ⟨fun hf ht => ?_, fun hf ht => ?_, fun hf => ?_⟩, by rfl⟩
  all_goals first
    | simp [handleDiscoverResponse, hs, hf, jsOr, ht]
    | simp [handleDiscoverResponse, hs, hf, jsOr]
    | simp [handleDiscoverResponse, hf, jsOr, ht]
    | simp [handleDiscoverResponse, hf, jsOr]

/-- Witness for C10 (amended) at concrete bodies. -/
theorem C10_response_shape_witness :
    handleDiscoverResponse true "OK"
        (some (Json.obj [("data", Json.str "payload")])) = .ok (Json.str "payload") ∧
    handleDiscoverResponse false "Bad Gateway"
        (some (Json.obj [("error", Json.str "boom")])) = .error (Json.str "boom") :=
  ⟨((C10_response_shape "OK" (Json.obj [("data", Json.str "payload")])
      (Json.str "payload")).1 (by rfl)).1 (by rfl) (by rfl),
   ((C10_response_shape "Bad Gateway" (Json.obj [("error", Json.str "boom")])
      (Json.str "boom")).2.2.1).1 (by rfl) (by rfl)⟩
